import Mathlib

/-
Verification development for the JMeter live-monitoring dashboard.

The repository stores one row per load-test sample (timestamp, label,
response time, success flag, thread count, status code, error message)
in a single table and answers summary queries over it.  This file gives
a shallow embedding of the ingest normalizer (receive_metrics), the
percentile helper, the per-second time-series endpoints (api_tps,
api_threads, api_errorpct), the grouped aggregate endpoints (the
count-sorted one from notreqired.py and the label-sorted one from
server.py), and the errors/success breakdown endpoints.  The sample
store is modelled as a list of samples in insertion order; SQL queries
become list filters and group-bys over that list; Python floats become
exact rationals; Python round(x, 2) becomes round-half-to-even on
hundredths.
-/

/-- A stored sample row of the jmeter_samples table. -/
structure Sample where
  timestamp : ℤ
  label : String
  response_time : ℚ
  success : Bool
  thread_count : ℤ
  status_code : String
  error_message : String
deriving DecidableEq, Repr

/-- An incoming ingest payload: each JSON key of receive_metrics modelled
as an optional field (none means the key is absent from the payload). -/
structure Payload where
  labelKey : Option String
  samplerKey : Option String
  responseTimeKey : Option ℚ
  avgResponseTimeKey : Option ℚ
  avgKey : Option ℚ
  successKey : Option Bool
  errorPctKey : Option ℚ
  statusCodeKey : Option String
  rcKey : Option String
  errorMessageKey : Option String
  errorMsgKey : Option String
  activeThreadsKey : Option ℤ
  threadsKey : Option ℤ
deriving DecidableEq, Repr

/-- The all-absent payload, a base for building concrete payloads. -/
def emptyPayload : Payload :=
  ⟨none, none, none, none, none, none, none, none, none, none, none, none, none⟩

/-- Python round to the nearest integer, halves to even (as in round(x)). -/
def pyround (x : ℚ) : ℤ :=
  if x - (⌊x⌋ : ℚ) < 1/2 then ⌊x⌋
  else if 1/2 < x - (⌊x⌋ : ℚ) then ⌊x⌋ + 1
  else if ⌊x⌋ % 2 = 0 then ⌊x⌋ else ⌊x⌋ + 1

/-- Python round(x, 2): round to two decimal digits. -/
def round2 (x : ℚ) : ℚ := ((pyround (x * 100) : ℚ)) / 100

/-- The success flag computed by receive_metrics: an explicit success key
wins; otherwise a present errorPct key greater than zero means failure;
otherwise the sample counts as successful. -/
def payloadSuccess (p : Payload) : Bool :=
  match p.successKey with
  | some b => b
  | none =>
    match p.errorPctKey with
    | some ep => if 0 < ep then false else true
    | none => true

/-- The ingest endpoint receive_metrics: normalize a payload into the
Sample appended to the store; the stored timestamp is the ingestion
time now, taken from the server clock. -/
def receive_metrics (now : ℤ) (p : Payload) : Sample :=
  { timestamp := now
    label := p.labelKey.getD (p.samplerKey.getD "ALL")
    response_time := p.responseTimeKey.getD (p.avgResponseTimeKey.getD (p.avgKey.getD 0))
    success := payloadSuccess p
    thread_count := p.activeThreadsKey.getD (p.threadsKey.getD 0)
    status_code := p.statusCodeKey.getD (p.rcKey.getD "200")
    error_message := if payloadSuccess p then "" else p.errorMessageKey.getD (p.errorMsgKey.getD "") }

/-- The rank position k = (len(sorted_list) - 1) * (pct / 100) used by the
percentile helper. -/
def rankPos (n : ℕ) (pct : ℚ) : ℚ := ((n : ℚ) - 1) * (pct / 100)

/-- The percentile helper of the dashboard: none on an empty list, the
element at k when k is integral, else linear interpolation between the
elements at floor k and ceil k. -/
def percentile (sorted_list : List ℚ) (pct : ℚ) : Option ℚ :=
  if sorted_list = [] then none
  else if ⌊rankPos sorted_list.length pct⌋ = ⌈rankPos sorted_list.length pct⌉ then
    some (sorted_list.getD (⌊rankPos sorted_list.length pct⌋).toNat 0)
  else
    some (sorted_list.getD (⌊rankPos sorted_list.length pct⌋).toNat 0 *
            ((⌈rankPos sorted_list.length pct⌉ : ℚ) - rankPos sorted_list.length pct)
        + sorted_list.getD (⌈rankPos sorted_list.length pct⌉).toNat 0 *
            (rankPos sorted_list.length pct - (⌊rankPos sorted_list.length pct⌋ : ℚ)))

/-- The integer seconds start, start+1, ..., end of a query window, as
produced by range(start, end+1). -/
def secondsRange (start e : ℤ) : List ℤ :=
  (List.range (e + 1 - start).toNat).map (fun i => start + Int.ofNat i)

/-- The SQL condition timestamp BETWEEN start AND end. -/
def sampleInWindow (start e : ℤ) (x : Sample) : Bool :=
  decide (start ≤ x.timestamp) && decide (x.timestamp ≤ e)

/-- The samples of the window that fall in the one-second bucket sec. -/
def tpsBucket (store : List Sample) (start e sec : ℤ) : List Sample :=
  (store.filter (sampleInWindow start e)).filter (fun x => decide (x.timestamp = sec))

/-- The api_tps endpoint: per-second sample counts over the window, with
zero filled in for seconds that have no samples. -/
def api_tps (store : List Sample) (start e : ℤ) : List ℤ × List ℕ :=
  (secondsRange start e,
   (secondsRange start e).map (fun sec => (tpsBucket store start e sec).length))

/-- The per-second average thread count of api_threads: the rounded mean
of the bucket, zero when the bucket is empty. -/
def threadAvg (store : List Sample) (start e sec : ℤ) : ℚ :=
  if tpsBucket store start e sec = [] then 0
  else round2 (((tpsBucket store start e sec).map (fun x => (x.thread_count : ℚ))).sum /
                ((tpsBucket store start e sec).length : ℚ))

/-- The api_threads endpoint: per-second average thread counts over the
window, with zero filled in for seconds that have no samples. -/
def api_threads (store : List Sample) (start e : ℤ) : List ℤ × List ℚ :=
  (secondsRange start e, (secondsRange start e).map (threadAvg store start e))

/-- Truthiness of the optional label query parameter: present and a
non-empty string. -/
def labelTruthy : Option String → Bool
  | none => false
  | some s => !s.isEmpty

/-- Truthiness of an optional integer query parameter: present and not
zero, exactly as a Python if on the parsed value. -/
def intTruthy : Option ℤ → Bool
  | none => false
  | some n => decide (n ≠ 0)

/-- The WHERE conditions added for truthy start and end bounds. -/
def boundsMatch (s e : Option ℤ) (x : Sample) : Bool :=
  (if intTruthy s then decide (s.getD 0 ≤ x.timestamp) else true) &&
  (if intTruthy e then decide (x.timestamp ≤ e.getD 0) else true)

/-- The window and label conditions of the api_errorpct queries. -/
def errorpctMatch (l : Option String) (start e : ℤ) (x : Sample) : Bool :=
  sampleInWindow start e x &&
  (if labelTruthy l then decide (x.label = l.getD "") else true)

/-- The per-second error percentage of api_errorpct: errors over totals
in the bucket times 100, zero when the bucket is empty, rounded. -/
def errorpctValue (store : List Sample) (l : Option String) (start e sec : ℤ) : ℚ :=
  round2
    (if ((store.filter (errorpctMatch l start e)).filter
          (fun x => decide (x.timestamp = sec))).length = 0 then 0
     else (((store.filter (fun x => errorpctMatch l start e x && !x.success)).filter
             (fun x => decide (x.timestamp = sec))).length : ℚ) /
          (((store.filter (errorpctMatch l start e)).filter
             (fun x => decide (x.timestamp = sec))).length : ℚ) * 100)

/-- The api_errorpct endpoint: per-second error percentages over the
window, zero filled in for seconds that have no samples. -/
def api_errorpct (store : List Sample) (l : Option String) (start e : ℤ) : List ℤ × List ℚ :=
  (secondsRange start e, (secondsRange start e).map (errorpctValue store l start e))

/-- Keys of a list in first-occurrence order, as a Python dict collects
group keys while scanning rows. -/
def firstOccur {α : Type} [BEq α] : List α → List α
  | [] => []
  | x :: rest => x :: (firstOccur rest).filter (fun y => !(y == x))

/-- Insert a row into a count-descending list, after all rows whose count
is at least as large, as a stable descending sort does. -/
def insertCountDesc {α : Type} (cnt : α → ℕ) (r : α) : List α → List α
  | [] => [r]
  | x :: xs => if cnt r ≤ cnt x then x :: insertCountDesc cnt r xs else r :: x :: xs

/-- Stable sort by descending count, as Python sorted with a count key
and reverse=True: ties keep their first-occurrence order. -/
def sortCountDesc {α : Type} (cnt : α → ℕ) (rs : List α) : List α :=
  rs.foldl (fun acc r => insertCountDesc cnt r acc) []

/-- One row of the notreqired.py aggregate report. -/
structure AggRow where
  label : String
  count : ℕ
  avg : ℚ
  min : ℚ
  max : ℚ
  pct90 : ℚ
  pct95 : ℚ
  pct99 : ℚ
  error_pct : ℚ
deriving DecidableEq, Repr

/-- The label, start and end filters of the notreqired.py aggregate
endpoint, each added only when truthy. -/
def aggMatches (l : Option String) (s e : Option ℤ) (x : Sample) : Bool :=
  (if labelTruthy l then decide (x.label = l.getD "") else true) && boundsMatch s e x

/-- The per-label row of the notreqired.py aggregate endpoint, computed
over the sorted response times of the label. -/
def mkAggRow (rows : List Sample) (lab : String) : AggRow :=
  let s := List.insertionSort (· ≤ ·) ((rows.filter (fun x => x.label == lab)).map
            (fun x => x.response_time))
  let errors := ((rows.filter (fun x => x.label == lab)).filter (fun x => !x.success)).length
  { label := lab
    count := s.length
    avg := if s.length = 0 then 0 else round2 (s.sum / (s.length : ℚ))
    min := s.headD 0
    max := s.getLastD 0
    pct90 := if s = [] then 0 else round2 ((percentile s 90).getD 0)
    pct95 := if s = [] then 0 else round2 ((percentile s 95).getD 0)
    pct99 := if s = [] then 0 else round2 ((percentile s 99).getD 0)
    error_pct := if s.length = 0 then 0 else round2 ((errors : ℚ) / (s.length : ℚ) * 100) }

/-- The aggregate rows of notreqired.py before the final sort: one row
per distinct label, in first-occurrence order of the filtered samples. -/
def aggRowsUnsorted (store : List Sample) (l : Option String) (s e : Option ℤ) : List AggRow :=
  (firstOccur ((store.filter (aggMatches l s e)).map (fun x => x.label))).map
    (mkAggRow (store.filter (aggMatches l s e)))

/-- The notreqired.py api_aggregate endpoint: per-label rows sorted by
descending sample count with Python sorted, which is stable. -/
def api_aggregate (store : List Sample) (l : Option String) (s e : Option ℤ) : List AggRow :=
  sortCountDesc (fun r => r.count) (aggRowsUnsorted store l s e)

/-- One row of the api_errors breakdown. -/
structure ErrRow where
  label : String
  status : String
  count : ℕ
  message : String
deriving DecidableEq, Repr

/-- The api_errors endpoint: failed samples within the truthy bounds,
grouped by label and status code, with the distinct error messages
joined, ordered by descending count. -/
def api_errors (store : List Sample) (s e : Option ℤ) : List ErrRow :=
  sortCountDesc (fun r => r.count)
    ((firstOccur (((store.filter (fun x => !x.success && boundsMatch s e x))).map
        (fun x => (x.label, x.status_code)))).map
      (fun kv =>
        { label := kv.1
          status := kv.2
          count := ((store.filter (fun x => !x.success && boundsMatch s e x)).filter
                     (fun x => x.label == kv.1 && x.status_code == kv.2)).length
          message := String.intercalate ","
            (firstOccur (((store.filter (fun x => !x.success && boundsMatch s e x)).filter
               (fun x => x.label == kv.1 && x.status_code == kv.2)).map
                 (fun x => x.error_message))) }))

/-- One row of the api_success breakdown. -/
structure SuccRow where
  label : String
  count : ℕ
  avg : ℚ
  min : ℚ
  max : ℚ
deriving DecidableEq, Repr

/-- The smallest element of a list of rationals, with a default for the
empty list (SQL MIN over a group, which is never empty). -/
def listMinD : List ℚ → ℚ → ℚ
  | [], d => d
  | x :: xs, _ => xs.foldl min x

/-- The largest element of a list of rationals, with a default for the
empty list (SQL MAX over a group, which is never empty). -/
def listMaxD : List ℚ → ℚ → ℚ
  | [], d => d
  | x :: xs, _ => xs.foldl max x

/-- The api_success endpoint: successful samples within the truthy
bounds, grouped by label, ordered by descending count. -/
def api_success (store : List Sample) (s e : Option ℤ) : List SuccRow :=
  sortCountDesc (fun r => r.count)
    ((firstOccur ((store.filter (fun x => x.success && boundsMatch s e x)).map
        (fun x => x.label))).map
      (fun lab =>
        { label := lab
          count := ((store.filter (fun x => x.success && boundsMatch s e x)).filter
                     (fun x => x.label == lab)).length
          avg := round2 ((((store.filter (fun x => x.success && boundsMatch s e x)).filter
                    (fun x => x.label == lab)).map (fun x => x.response_time)).sum /
                  ((((store.filter (fun x => x.success && boundsMatch s e x)).filter
                    (fun x => x.label == lab))).length : ℚ))
          min := listMinD (((store.filter (fun x => x.success && boundsMatch s e x)).filter
                    (fun x => x.label == lab)).map (fun x => x.response_time)) 0
          max := listMaxD (((store.filter (fun x => x.success && boundsMatch s e x)).filter
                    (fun x => x.label == lab)).map (fun x => x.response_time)) 0 }))

/-- One row of the server.py aggregate report, the variant carrying
explicit success and error counts. -/
structure AggRow2 where
  label : String
  samples : ℕ
  success_count : ℕ
  error_count : ℕ
  avg_rt : ℚ
  min_rt : ℚ
  max_rt : ℚ
  total_time : ℚ
  error_pct : ℚ
deriving DecidableEq, Repr

/-- The per-label row of the server.py aggregate SQL: counts, the success
and error partition, response-time statistics, and the unrounded error
percentage guarded against an empty group. -/
def mkAggRow2 (store : List Sample) (lab : String) : AggRow2 :=
  { label := lab
    samples := (store.filter (fun x => x.label == lab)).length
    success_count := ((store.filter (fun x => x.label == lab)).filter
                       (fun x => x.success)).length
    error_count := ((store.filter (fun x => x.label == lab)).filter
                     (fun x => !x.success)).length
    avg_rt := if (store.filter (fun x => x.label == lab)).length = 0 then 0
              else ((store.filter (fun x => x.label == lab)).map
                     (fun x => x.response_time)).sum /
                   ((store.filter (fun x => x.label == lab)).length : ℚ)
    min_rt := listMinD ((store.filter (fun x => x.label == lab)).map
                (fun x => x.response_time)) 0
    max_rt := listMaxD ((store.filter (fun x => x.label == lab)).map
                (fun x => x.response_time)) 0
    total_time := ((store.filter (fun x => x.label == lab)).map
                    (fun x => x.response_time)).sum / 1000
    error_pct := if (store.filter (fun x => x.label == lab)).length = 0 then 0
                 else (((store.filter (fun x => x.label == lab)).filter
                         (fun x => !x.success)).length : ℚ) /
                      ((store.filter (fun x => x.label == lab)).length : ℚ) * 100 }

/-- The server.py api_aggregate endpoint (named v2 here because both
files define an api_aggregate): one row per distinct label, labels in
ascending order as GROUP BY label ORDER BY label produces them. -/
def api_aggregate_v2 (store : List Sample) : List AggRow2 :=
  (List.insertionSort (· ≤ ·) (firstOccur (store.map (fun x => x.label)))).map
    (mkAggRow2 store)

/-- A request handled by the server: an ingest post or an aggregate
query with its filters. -/
inductive Request where
  | ingest (now : ℤ) (p : Payload)
  | aggregate (l : Option String) (s e : Option ℤ)
deriving DecidableEq

/-- A server response: an acknowledgement or a list of aggregate rows. -/
inductive Response where
  | ack
  | rows (rs : List AggRow)
deriving DecidableEq

/-- One request against the store: ingest appends the normalized sample,
an aggregate query reads the store and leaves it unchanged. -/
def handle (store : List Sample) : Request → List Sample × Response
  | Request.ingest now p => (store ++ [receive_metrics now p], Response.ack)
  | Request.aggregate l s e => (store, Response.rows (api_aggregate store l s e))

/-- A concrete store for the ordering counterexample: two labels seen in
the order b then a, one sample each. -/
def c4store : List Sample :=
  [⟨1, "b", 0, true, 0, "200", ""⟩, ⟨2, "a", 0, true, 0, "200", ""⟩]

/-- Lexical order on character lists, the ascending label order the spec
pins for tie-breaking. -/
def lexLe : List Char → List Char → Bool
  | [], _ => true
  | _ :: _, [] => false
  | a :: as, b :: bs => if a < b then true else if b < a then false else lexLe as bs

/-- A concrete store for the error-percentage counterexample: three
samples of one label, one of them failing. -/
def c3store : List Sample :=
  [⟨10, "L", 0, true, 0, "200", ""⟩, ⟨10, "L", 0, true, 0, "200", ""⟩,
   ⟨10, "L", 0, false, 0, "500", "boom"⟩]

/-- A concrete failing payload carrying no error-message key. -/
def failPayload : Payload := { emptyPayload with successKey := some false }

/-- A concrete one-sample store. -/
def c7store : List Sample := [⟨1, "W", 0, true, 0, "200", ""⟩]

/-- A concrete payload exercising several alias chains at once: label
present, response time via the second alias, success derived from a
zero errorPct, thread count via the second alias. -/
def c5payload : Payload :=
  { emptyPayload with
      labelKey := some "L1"
      avgResponseTimeKey := some 7
      errorPctKey := some 0
      threadsKey := some 4 }

/-- A concrete successful payload. -/
def okPayload : Payload := { emptyPayload with successKey := some true }

theorem mem_insertCountDesc {α : Type} (cnt : α → ℕ) (r y : α) (acc : List α) :
    y ∈ insertCountDesc cnt r acc ↔ y = r ∨ y ∈ acc := by
  induction acc with
  | nil => simp [insertCountDesc]
  | cons x xs ih =>
    by_cases h : cnt r ≤ cnt x
    · simp only [insertCountDesc, if_pos h, List.mem_cons, ih]
      try tauto
    · simp only [insertCountDesc, if_neg h, List.mem_cons]
      try tauto

theorem mem_foldl_insertCountDesc {α : Type} (cnt : α → ℕ) (rs : List α) :
    ∀ (acc : List α) (y : α),
      y ∈ rs.foldl (fun acc r => insertCountDesc cnt r acc) acc ↔ y ∈ acc ∨ y ∈ rs := by
  induction rs with
  | nil => simp
  | cons r rest ih =>
    intro acc y
    rw [List.foldl_cons, ih, mem_insertCountDesc]
    simp only [List.mem_cons]
    tauto

theorem mem_sortCountDesc {α : Type} (cnt : α → ℕ) (rs : List α) (y : α) :
    y ∈ sortCountDesc cnt rs ↔ y ∈ rs := by
  rw [sortCountDesc, mem_foldl_insertCountDesc]
  simp

theorem mem_of_mem_firstOccur {α : Type} [BEq α] (xs : List α) (y : α) :
    y ∈ firstOccur xs → y ∈ xs := by
  induction xs with
  | nil => simp [firstOccur]
  | cons x rest ih =>
    intro hy
    rcases List.mem_cons.mp hy with h | h
    · exact h ▸ List.mem_cons_self x rest
    · exact List.mem_cons_of_mem x (ih (List.mem_filter.mp h).1)

/-- C10: a supplied time bound equal to 0 is treated as absent by the
aggregate, errors and success endpoints: querying with a zero start or
end bound returns exactly what a query with that bound omitted returns,
because the timestamp condition is only added when the bound is truthy. -/
theorem zero_bound_treated_as_absent (store : List Sample) (l : Option String) (b : Option ℤ) :
    api_aggregate store l (some 0) b = api_aggregate store l none b ∧
    api_aggregate store l b (some 0) = api_aggregate store l b none ∧
    api_errors store (some 0) b = api_errors store none b ∧
    api_errors store b (some 0) = api_errors store b none ∧
    api_success store (some 0) b = api_success store none b ∧
    api_success store b (some 0) = api_success store b none :=
  ⟨rfl, rfl, rfl, rfl, rfl, rfl⟩

/-- C9: the aggregate endpoint is a pure query: handling an aggregate
request leaves the store unchanged, and handling the same request again
on the resulting store returns the same response. -/
theorem aggregate_query_pure (store : List Sample) (l : Option String) (s e : Option ℤ) :
    (handle store (Request.aggregate l s e)).1 = store ∧
    (handle (handle store (Request.aggregate l s e)).1 (Request.aggregate l s e)).2 =
      (handle store (Request.aggregate l s e)).2 :=
  ⟨rfl, rfl⟩

/-- C5: receive_metrics resolves each field by its first-present-wins
alias chain (label/sampler, responseTime/avgResponseTime/avg,
success/errorPct, statusCode/rc, activeThreads/threads) and always
stamps the sample with the ingestion time, never a payload value. -/
theorem ingest_field_resolution (now : ℤ) (p : Payload) :
    (receive_metrics now p).timestamp = now ∧
    (∀ v, p.labelKey = some v → (receive_metrics now p).label = v) ∧
    (p.labelKey = none → ∀ v, p.samplerKey = some v → (receive_metrics now p).label = v) ∧
    (p.labelKey = none → p.samplerKey = none → (receive_metrics now p).label = "ALL") ∧
    (∀ v, p.responseTimeKey = some v → (receive_metrics now p).response_time = v) ∧
    (p.responseTimeKey = none → ∀ v, p.avgResponseTimeKey = some v →
      (receive_metrics now p).response_time = v) ∧
    (p.responseTimeKey = none → p.avgResponseTimeKey = none → ∀ v, p.avgKey = some v →
      (receive_metrics now p).response_time = v) ∧
    (p.responseTimeKey = none → p.avgResponseTimeKey = none → p.avgKey = none →
      (receive_metrics now p).response_time = 0) ∧
    (∀ b, p.successKey = some b → (receive_metrics now p).success = b) ∧
    (p.successKey = none → ∀ ep, p.errorPctKey = some ep →
      ((receive_metrics now p).success = true ↔ ep ≤ 0)) ∧
    (p.successKey = none → p.errorPctKey = none → (receive_metrics now p).success = true) ∧
    (∀ v, p.statusCodeKey = some v → (receive_metrics now p).status_code = v) ∧
    (p.statusCodeKey = none → ∀ v, p.rcKey = some v → (receive_metrics now p).status_code = v) ∧
    (p.statusCodeKey = none → p.rcKey = none → (receive_metrics now p).status_code = "200") ∧
    (∀ v, p.activeThreadsKey = some v → (receive_metrics now p).thread_count = v) ∧
    (p.activeThreadsKey = none → ∀ v, p.threadsKey = some v →
      (receive_metrics now p).thread_count = v) ∧
    (p.activeThreadsKey = none → p.threadsKey = none →
      (receive_metrics now p).thread_count = 0) := by
  refine ⟨rfl, ?_, ?_, ?_, ?_, ?_, ?_, ?_, ?_, ?_, ?_, ?_, ?_, ?_, ?_, ?_, ?_⟩
  · intro v hv; simp [receive_metrics, hv]
  · intro h1 v hv; simp [receive_metrics, h1, hv]
  · intro h1 h2; simp [receive_metrics, h1, h2]
  · intro v hv; simp [receive_metrics, hv]
  · intro h1 v hv; simp [receive_metrics, h1, hv]
  · intro h1 h2 v hv; simp [receive_metrics, h1, h2, hv]
  · intro h1 h2 h3; simp [receive_metrics, h1, h2, h3]
  · intro b hb; simp [receive_metrics, payloadSuccess, hb]
  · intro h1 ep hep
    simp only [receive_metrics, payloadSuccess, h1, hep]
    by_cases hp : 0 < ep
    · simp only [if_pos hp]
      simp only [Bool.false_eq_true, false_iff, not_le]
      exact hp
    · simp only [if_neg hp]
      simp only [true_iff]
      exact not_lt.mp hp
  · intro h1 h2; simp [receive_metrics, payloadSuccess, h1, h2]
  · intro v hv; simp [receive_metrics, hv]
  · intro h1 v hv; simp [receive_metrics, h1, hv]
  · intro h1 h2; simp [receive_metrics, h1, h2]
  · intro v hv; simp [receive_metrics, hv]
  · intro h1 v hv; simp [receive_metrics, h1, hv]
  · intro h1 h2; simp [receive_metrics, h1, h2]

/-- The field resolution at a concrete payload exercising several alias
chains at once. -/
theorem ingest_field_resolution_witness :
    (receive_metrics 9 c5payload).timestamp = 9 ∧
    (receive_metrics 9 c5payload).label = "L1" ∧
    (receive_metrics 9 c5payload).response_time = 7 ∧
    ((receive_metrics 9 c5payload).success = true ↔ (0 : ℚ) ≤ 0) ∧
    (receive_metrics 9 c5payload).status_code = "200" ∧
    (receive_metrics 9 c5payload).thread_count = 4 := by
  obtain ⟨h1, h2, h3, h4, h5, h6, h7, h8, h9, h10, h11, h12, h13, h14, h15, h16, h17⟩ :=
    ingest_field_resolution 9 c5payload
  exact ⟨h1, h2 "L1" rfl, h6 rfl 7 rfl, h10 rfl 0 rfl, h14 rfl rfl, h16 rfl 4 rfl⟩

/-- The claimed two-sided invariant fails: a failing payload with no
error-message key is stored with success false and an empty message. -/
theorem error_message_iff_fails :
    ¬ (((receive_metrics 0 failPayload).error_message = "") ↔
        ((receive_metrics 0 failPayload).success = true)) := by
  decide

/-- C6 amended: the normalizer forces error_message to be empty whenever
the stored sample is successful; when success is false the message is
whatever the payload supplied (possibly empty), so emptiness does not
imply success. -/
theorem error_message_empty_of_success (now : ℤ) (p : Payload)
    (h : (receive_metrics now p).success = true) :
    (receive_metrics now p).error_message = "" := by
  have hs : payloadSuccess p = true := h
  simp [receive_metrics, hs]

/-- The success direction of the message invariant at a concrete payload. -/
theorem error_message_empty_of_success_witness :
    (receive_metrics 3 okPayload).error_message = "" :=
  error_message_empty_of_success 3 okPayload rfl

/-- C8: a window with start greater than end yields the empty series on
the tps, threads and error-rate endpoints, for any store and filter. -/
theorem empty_window_empty_series (store : List Sample) (l : Option String) (start e : ℤ)
    (h : start > e) :
    api_tps store start e = ([], []) ∧
    api_threads store start e = ([], []) ∧
    api_errorpct store l start e = ([], []) := by
  have hz : (e + 1 - start).toNat = 0 := Int.toNat_eq_zero.mpr (by omega)
  refine ⟨?_, ?_, ?_⟩ <;> simp [api_tps, api_threads, api_errorpct, secondsRange, hz]

/-- The empty-window behaviour at a concrete degenerate window. -/
theorem empty_window_empty_series_witness :
    api_tps [] 5 3 = ([], []) ∧
    api_threads [] 5 3 = ([], []) ∧
    api_errorpct [] none 5 3 = ([], []) :=
  empty_window_empty_series [] none 5 3 (by norm_num)

theorem secondsRange_length (start e : ℤ) :
    (secondsRange start e).length = (e + 1 - start).toNat := by
  rw [secondsRange, List.length_map, List.length_range]

theorem mem_secondsRange (start e sec : ℤ) :
    sec ∈ secondsRange start e ↔ start ≤ sec ∧ sec ≤ e := by
  rw [secondsRange]
  simp only [List.mem_map, List.mem_range, Int.ofNat_eq_coe]
  constructor
  · rintro ⟨i, hi, rfl⟩
    omega
  · intro hsec
    exact ⟨(sec - start).toNat, by omega, by omega⟩

/-- C2: for any window with start at most end, the tps and threads series
have exactly end - start + 1 entries; the emitted seconds are exactly
the seconds of the window; and a second of the window with no samples
carries the value 0 in both series. -/
theorem time_series_length_exact (store : List Sample) (start e : ℤ) (h : start ≤ e) :
    ((api_tps store start e).1.length : ℤ) = e - start + 1 ∧
    ((api_tps store start e).2.length : ℤ) = e - start + 1 ∧
    ((api_threads store start e).1.length : ℤ) = e - start + 1 ∧
    ((api_threads store start e).2.length : ℤ) = e - start + 1 ∧
    (∀ sec : ℤ, sec ∈ (api_tps store start e).1 ↔ start ≤ sec ∧ sec ≤ e) ∧
    (∀ sec : ℤ, start ≤ sec → sec ≤ e → (∀ x ∈ store, x.timestamp ≠ sec) →
      (tpsBucket store start e sec).length = 0 ∧ threadAvg store start e sec = 0) ∧
    (api_tps store start e).2 = (api_tps store start e).1.map
      (fun sec => (tpsBucket store start e sec).length) ∧
    (api_threads store start e).2 = (api_threads store start e).1.map
      (threadAvg store start e) := by
  have hlen : ((secondsRange start e).length : ℤ) = e - start + 1 := by
    rw [secondsRange_length]
    omega
  refine ⟨hlen, ?_, hlen, ?_, ?_, ?_, rfl, rfl⟩
  · rw [api_tps, List.length_map]
    exact hlen
  · rw [api_threads, List.length_map]
    exact hlen
  · intro sec
    exact mem_secondsRange start e sec
  · intro sec h1 h2 hnone
    have hb : tpsBucket store start e sec = [] := by
      rw [tpsBucket, List.filter_eq_nil]
      intro a ha
      simp only [decide_eq_true_eq]
      exact hnone a (List.mem_filter.mp ha).1
    refine ⟨by rw [hb]; rfl, ?_⟩
    rw [threadAvg, if_pos hb]

/-- The series shape over a concrete window on the empty store. -/
theorem time_series_length_exact_witness :
    ((api_tps [] 3 5).1.length : ℤ) = 5 - 3 + 1 ∧
    ((api_tps [] 3 5).2.length : ℤ) = 5 - 3 + 1 ∧
    ((api_threads [] 3 5).1.length : ℤ) = 5 - 3 + 1 ∧
    ((api_threads [] 3 5).2.length : ℤ) = 5 - 3 + 1 ∧
    (∀ sec : ℤ, sec ∈ (api_tps [] 3 5).1 ↔ 3 ≤ sec ∧ sec ≤ 5) ∧
    (∀ sec : ℤ, 3 ≤ sec → sec ≤ 5 → (∀ x ∈ ([] : List Sample), x.timestamp ≠ sec) →
      (tpsBucket [] 3 5 sec).length = 0 ∧ threadAvg [] 3 5 sec = 0) ∧
    (api_tps [] 3 5).2 = (api_tps [] 3 5).1.map
      (fun sec => (tpsBucket [] 3 5 sec).length) ∧
    (api_threads [] 3 5).2 = (api_threads [] 3 5).1.map (threadAvg [] 3 5) :=
  time_series_length_exact [] 3 5 (by norm_num)

/-- C7: the percentile helper returns none, not a number, on the empty
sequence; it returns a numeric value on every non-empty sequence; and
the aggregate endpoint computes its percentile fields only for labels
whose sample list is non-empty (every emitted row has a positive
count), so rounding is never applied to the absent value. -/
theorem percentile_empty_undefined :
    (∀ p : ℚ, percentile [] p = none) ∧
    (∀ (s : List ℚ) (p : ℚ), s ≠ [] → (percentile s p).isSome = true) ∧
    (∀ (store : List Sample) (l : Option String) (a b : Option ℤ) (r : AggRow),
        r ∈ api_aggregate store l a b → 0 < r.count) := by
  refine ⟨fun p => rfl, ?_, ?_⟩
  · intro s p hs
    rw [percentile, if_neg hs]
    by_cases hfc : ⌊rankPos s.length p⌋ = ⌈rankPos s.length p⌉
    · rw [if_pos hfc]; rfl
    · rw [if_neg hfc]; rfl
  · intro store l a b r hr
    rw [api_aggregate, mem_sortCountDesc, aggRowsUnsorted] at hr
    obtain ⟨lab, hlab, hre⟩ := List.mem_map.mp hr
    obtain ⟨x, hx, hxlab⟩ := List.mem_map.mp (mem_of_mem_firstOccur _ _ hlab)
    subst hre
    have hxf : x ∈ (store.filter (aggMatches l a b)).filter (fun y => y.label == lab) :=
      List.mem_filter.mpr ⟨hx, by simp [hxlab]⟩
    have hpos : 0 < ((store.filter (aggMatches l a b)).filter
        (fun y => y.label == lab)).length :=
      List.length_pos.mpr (List.ne_nil_of_mem hxf)
    simp only [mkAggRow]
    rw [(List.perm_insertionSort _ _).length_eq, List.length_map]
    exact hpos

/-- The empty-percentile guard at concrete inputs. -/
theorem percentile_empty_undefined_witness :
    percentile [] 50 = none ∧ (percentile [1] 50).isSome = true ∧
    0 < (mkAggRow (c7store.filter (aggMatches none none none)) "W").count := by
  refine ⟨percentile_empty_undefined.1 50,
    percentile_empty_undefined.2.1 [1] 50 (by simp), ?_⟩
  apply percentile_empty_undefined.2.2 c7store none none none
  rw [api_aggregate, mem_sortCountDesc, aggRowsUnsorted]
  apply List.mem_map_of_mem
  have hfilter : c7store.filter (aggMatches none none none) = c7store := by
    simp [c7store, aggMatches, labelTruthy, intTruthy, boundsMatch]
  rw [hfilter]
  simp [c7store, firstOccur]

theorem pairwise_insertCountDesc {α : Type} (cnt : α → ℕ) (r : α) (acc : List α)
    (h : List.Pairwise (fun a b => cnt b ≤ cnt a) acc) :
    List.Pairwise (fun a b => cnt b ≤ cnt a) (insertCountDesc cnt r acc) := by
  induction acc with
  | nil => simp [insertCountDesc]
  | cons x xs ih =>
    rw [List.pairwise_cons] at h
    by_cases hc : cnt r ≤ cnt x
    · simp only [insertCountDesc, if_pos hc]
      rw [List.pairwise_cons]
      refine ⟨?_, ih h.2⟩
      intro y hy
      rcases (mem_insertCountDesc cnt r y xs).mp hy with rfl | hy2
      · exact hc
      · exact h.1 y hy2
    · simp only [insertCountDesc, if_neg hc]
      rw [List.pairwise_cons]
      refine ⟨?_, List.pairwise_cons.mpr h⟩
      intro y hy
      rcases List.mem_cons.mp hy with rfl | hy2
      · omega
      · have := h.1 y hy2
        omega

theorem pairwise_foldl_insertCountDesc {α : Type} (cnt : α → ℕ) (rs : List α) :
    ∀ acc, List.Pairwise (fun a b => cnt b ≤ cnt a) acc →
      List.Pairwise (fun a b => cnt b ≤ cnt a)
        (rs.foldl (fun acc r => insertCountDesc cnt r acc) acc) := by
  induction rs with
  | nil => intro acc h; exact h
  | cons r rest ih =>
    intro acc h
    rw [List.foldl_cons]
    exact ih _ (pairwise_insertCountDesc cnt r acc h)

theorem pairwise_sortCountDesc {α : Type} (cnt : α → ℕ) (rs : List α) :
    List.Pairwise (fun a b => cnt b ≤ cnt a) (sortCountDesc cnt rs) :=
  pairwise_foldl_insertCountDesc cnt rs [] List.Pairwise.nil

theorem filter_insertCountDesc {α : Type} (cnt : α → ℕ) (r : α) (acc : List α) (c : ℕ)
    (h : List.Pairwise (fun a b => cnt b ≤ cnt a) acc) :
    (insertCountDesc cnt r acc).filter (fun x => cnt x == c) =
      if cnt r = c then acc.filter (fun x => cnt x == c) ++ [r]
      else acc.filter (fun x => cnt x == c) := by
  induction acc with
  | nil =>
    simp only [insertCountDesc, List.filter_cons, List.filter_nil]
    by_cases hc : cnt r = c <;> simp [hc]
  | cons x xs ih =>
    rw [List.pairwise_cons] at h
    by_cases hrx : cnt r ≤ cnt x
    · simp only [insertCountDesc, if_pos hrx, List.filter_cons]
      rw [ih h.2]
      by_cases hx : cnt x = c <;> by_cases hc : cnt r = c <;> simp [hx, hc]
    · simp only [insertCountDesc, if_neg hrx, List.filter_cons]
      by_cases hc : cnt r = c
      · have hxc : ¬ (cnt x = c) := by omega
        have hnil : xs.filter (fun y => cnt y == c) = [] := by
          rw [List.filter_eq_nil]
          intro a ha
          have := h.1 a ha
          simp only [beq_iff_eq]
          omega
        simp [hc, hxc, hnil]
      · simp [hc]

theorem filter_foldl_insertCountDesc {α : Type} (cnt : α → ℕ) (c : ℕ) (rs : List α) :
    ∀ acc, List.Pairwise (fun a b => cnt b ≤ cnt a) acc →
      (rs.foldl (fun acc r => insertCountDesc cnt r acc) acc).filter (fun x => cnt x == c) =
        acc.filter (fun x => cnt x == c) ++ rs.filter (fun x => cnt x == c) := by
  induction rs with
  | nil => intro acc h; simp
  | cons r rest ih =>
    intro acc h
    rw [List.foldl_cons, ih _ (pairwise_insertCountDesc cnt r acc h),
        filter_insertCountDesc cnt r acc c h, List.filter_cons]
    by_cases hc : cnt r = c
    · simp [hc, List.append_assoc]
    · simp [hc]

theorem filter_sortCountDesc {α : Type} (cnt : α → ℕ) (c : ℕ) (rs : List α) :
    (sortCountDesc cnt rs).filter (fun x => cnt x == c) = rs.filter (fun x => cnt x == c) := by
  rw [sortCountDesc, filter_foldl_insertCountDesc cnt c rs [] List.Pairwise.nil]
  simp

/-- The claimed ordering fails on a store whose labels first appear in
the order b then a with one sample each: the endpoint returns the b row
before the a row, so equal-count ties are not broken by ascending
lexical label order. -/
theorem aggregate_order_not_lexical :
    ¬ List.Pairwise
        (fun a b : AggRow =>
          b.count < a.count ∨ (a.count = b.count ∧ lexLe a.label.data b.label.data = true))
        (api_aggregate c4store none none none) := by
  decide

/-- C4 amended: the aggregate rows are ordered by descending sample
count, and ties between rows of equal count keep their first-appearance
order in the filtered samples (the sort is stable): for each count
value, the rows carrying it appear exactly as in the unsorted per-label
row list. Lexical tie-breaking does not hold. -/
theorem aggregate_order_desc_stable (store : List Sample) (l : Option String) (s e : Option ℤ) :
    List.Pairwise (fun a b : AggRow => b.count ≤ a.count) (api_aggregate store l s e) ∧
    ∀ c : ℕ, (api_aggregate store l s e).filter (fun r => r.count == c) =
      (aggRowsUnsorted store l s e).filter (fun r => r.count == c) :=
  ⟨pairwise_sortCountDesc _ _, fun c => filter_sortCountDesc _ c _⟩

theorem success_partition (g : List Sample) :
    (g.filter (fun x => x.success)).length + (g.filter (fun x => !x.success)).length =
      g.length := by
  induction g with
  | nil => rfl
  | cons x xs ih => cases hx : x.success <;> simp [List.filter_cons, hx] <;> omega

theorem mem_api_aggregate_v2 (store : List Sample) (r : AggRow2)
    (hr : r ∈ api_aggregate_v2 store) : ∃ lab, r = mkAggRow2 store lab := by
  rw [api_aggregate_v2] at hr
  obtain ⟨lab, _, hre⟩ := List.mem_map.mp hr
  exact ⟨lab, hre.symm⟩

theorem mem_mkAggRow2_c3store : mkAggRow2 c3store "L" ∈ api_aggregate_v2 c3store := by
  rw [api_aggregate_v2]
  apply List.mem_map_of_mem
  have hfo : firstOccur (c3store.map (fun x => x.label)) = ["L"] := by
    simp [c3store, firstOccur]
  rw [hfo]
  simp [List.insertionSort, List.orderedInsert]

/-- C3 amended: every aggregate row of the server.py endpoint satisfies
success_count + error_count = samples, and error_pct is exactly
error_count / samples * 100 without rounding whenever samples is
positive, and 0 when samples is 0 (division never faults). -/
theorem aggregate_row_arithmetic (store : List Sample) (r : AggRow2)
    (hr : r ∈ api_aggregate_v2 store) :
    r.success_count + r.error_count = r.samples ∧
    (0 < r.samples → r.error_pct = (r.error_count : ℚ) / (r.samples : ℚ) * 100) ∧
    (r.samples = 0 → r.error_pct = 0) := by
  obtain ⟨lab, rfl⟩ := mem_api_aggregate_v2 store r hr
  refine ⟨?_, ?_, ?_⟩
  · simp only [mkAggRow2]
    exact success_partition _
  · intro hpos
    simp only [mkAggRow2] at hpos ⊢
    rw [if_neg (by omega)]
  · intro h0
    simp only [mkAggRow2] at h0 ⊢
    rw [if_pos h0]

/-- The row arithmetic at the concrete three-sample store. -/
theorem aggregate_row_arithmetic_witness :
    (mkAggRow2 c3store "L").success_count + (mkAggRow2 c3store "L").error_count =
      (mkAggRow2 c3store "L").samples ∧
    (0 < (mkAggRow2 c3store "L").samples →
      (mkAggRow2 c3store "L").error_pct =
        ((mkAggRow2 c3store "L").error_count : ℚ) /
          ((mkAggRow2 c3store "L").samples : ℚ) * 100) ∧
    ((mkAggRow2 c3store "L").samples = 0 → (mkAggRow2 c3store "L").error_pct = 0) :=
  aggregate_row_arithmetic c3store (mkAggRow2 c3store "L") mem_mkAggRow2_c3store

/-- The claimed rounding of error_pct fails on the server.py aggregate:
with three samples of one label and one failure, the returned error_pct
is exactly 100/3 while rounding to two decimals would give 33.33. -/
theorem aggregate_error_pct_not_rounded :
    ¬ ∀ r ∈ api_aggregate_v2 c3store,
        (r.success_count + r.error_count = r.samples ∧
         (0 < r.samples →
           r.error_pct = round2 ((r.error_count : ℚ) / (r.samples : ℚ) * 100)) ∧
         (r.samples = 0 → r.error_pct = 0)) := by
  intro h
  have hsamp : (mkAggRow2 c3store "L").samples = 3 := by decide
  have herr : (mkAggRow2 c3store "L").error_count = 1 := by decide
  have hpos : 0 < (mkAggRow2 c3store "L").samples := by rw [hsamp]; norm_num
  have h2 := (h _ mem_mkAggRow2_c3store).2.1 hpos
  have hpct : (mkAggRow2 c3store "L").error_pct = (1 : ℚ) / 3 * 100 := by
    simp [mkAggRow2, c3store]
  have hEq : ((mkAggRow2 c3store "L").error_count : ℚ) /
      ((mkAggRow2 c3store "L").samples : ℚ) * 100 = (1 : ℚ) / 3 * 100 := by
    rw [herr, hsamp]
    norm_num
  have hfl : ⌊((1 : ℚ) / 3 * 100 * 100)⌋ = 3333 := by norm_num
  have hround : round2 ((1 : ℚ) / 3 * 100) = 3333 / 100 := by
    rw [round2, pyround, hfl]
    rw [if_pos (by norm_num : ((1 : ℚ) / 3 * 100 * 100) - ((3333 : ℤ) : ℚ) < 1 / 2)]
    norm_num
  rw [hpct, hEq, hround] at h2
  norm_num at h2

theorem getD_zero_eq_head (S : List ℚ) (hne : S ≠ []) : S.getD 0 0 = S.head hne := by
  cases S with
  | nil => exact absurd rfl hne
  | cons a l => rfl

theorem head_eq_get_zero (S : List ℚ) (hne : S ≠ []) :
    S.head hne = S.get ⟨0, List.length_pos.mpr hne⟩ := by
  cases S with
  | nil => exact absurd rfl hne
  | cons a l => rfl

theorem getD_length_sub_one (S : List ℚ) (hne : S ≠ []) :
    S.getD (S.length - 1) 0 = S.getLast hne := by
  have hlt : S.length - 1 < S.length := by
    have := List.length_pos.mpr hne
    omega
  rw [List.getD_eq_get S 0 hlt, List.getLast_eq_get]

theorem getD_bounds (S : List ℚ) (hne : S ≠ []) (hsort : List.Sorted (· ≤ ·) S)
    (i : ℕ) (hi : i < S.length) :
    S.head hne ≤ S.getD i 0 ∧ S.getD i 0 ≤ S.getLast hne := by
  rw [List.getD_eq_get S 0 hi, head_eq_get_zero S hne, List.getLast_eq_get]
  constructor
  · exact hsort.rel_get_of_le (Fin.mk_le_mk.mpr (Nat.zero_le i))
  · exact hsort.rel_get_of_le (Fin.mk_le_mk.mpr (by omega))

theorem getD_mono (S : List ℚ) (hsort : List.Sorted (· ≤ ·) S)
    (i j : ℕ) (hij : i ≤ j) (hj : j < S.length) :
    S.getD i 0 ≤ S.getD j 0 := by
  rw [List.getD_eq_get S 0 (lt_of_le_of_lt hij hj), List.getD_eq_get S 0 hj]
  exact hsort.rel_get_of_le (Fin.mk_le_mk.mpr hij)

theorem rankPos_nonneg (n : ℕ) (p : ℚ) (hn : 1 ≤ n) (hp : 0 ≤ p) : 0 ≤ rankPos n p := by
  rw [rankPos]
  apply mul_nonneg
  · have h1 : (1 : ℚ) ≤ (n : ℚ) := by exact_mod_cast hn
    linarith
  · positivity

theorem rankPos_le (n : ℕ) (p : ℚ) (hn : 1 ≤ n) (hp0 : 0 ≤ p) (hp1 : p ≤ 100) :
    rankPos n p ≤ (n : ℚ) - 1 := by
  rw [rankPos]
  have h1 : (0 : ℚ) ≤ (n : ℚ) - 1 := by
    have : (1 : ℚ) ≤ (n : ℚ) := by exact_mod_cast hn
    linarith
  have h2 : p / 100 ≤ 1 := by linarith
  calc ((n : ℚ) - 1) * (p / 100) ≤ ((n : ℚ) - 1) * 1 :=
        mul_le_mul_of_nonneg_left h2 h1
    _ = (n : ℚ) - 1 := mul_one _

theorem convex_between (a b w0 w1 lo hi : ℚ) (hw0 : 0 ≤ w0) (hw1 : 0 ≤ w1)
    (hws : w0 + w1 = 1) (hab : a ≤ b) (hlo : lo ≤ a) (hhi : b ≤ hi) :
    lo ≤ a * w0 + b * w1 ∧ a * w0 + b * w1 ≤ hi := by
  have e1 : a * w0 + b * w1 = a + (b - a) * w1 := by linear_combination a * hws
  have e2 : a * w0 + b * w1 = b - (b - a) * w0 := by linear_combination b * hws
  constructor
  · have hk : 0 ≤ (b - a) * w1 := mul_nonneg (by linarith) hw1
    linarith [e1]
  · have hk : 0 ≤ (b - a) * w0 := mul_nonneg (by linarith) hw0
    linarith [e2]

/-- C1: on a non-empty ascending-sorted sequence, the percentile helper
returns a value between the first and the last element for every p in
[0, 100]; p = 0 returns the first element (the minimum) and p = 100
returns the last element (the maximum). -/
theorem percentile_within_min_max (S : List ℚ) (p : ℚ) (hne : S ≠ [])
    (hsort : List.Sorted (· ≤ ·) S) (hp0 : 0 ≤ p) (hp1 : p ≤ 100) :
    (∃ r, percentile S p = some r ∧ S.head hne ≤ r ∧ r ≤ S.getLast hne) ∧
    percentile S 0 = some (S.head hne) ∧
    percentile S 100 = some (S.getLast hne) := by
  have hn : 1 ≤ S.length := List.length_pos.mpr hne
  refine ⟨?_, ?_, ?_⟩
  · have hk0 : 0 ≤ rankPos S.length p := rankPos_nonneg _ _ hn hp0
    have hk1 : rankPos S.length p ≤ (S.length : ℚ) - 1 := rankPos_le _ _ hn hp0 hp1
    have hf0 : 0 ≤ ⌊rankPos S.length p⌋ := Int.floor_nonneg.mpr hk0
    have hcle : ⌈rankPos S.length p⌉ ≤ (S.length : ℤ) - 1 := by
      apply Int.ceil_le.mpr
      push_cast
      linarith
    by_cases hfc : ⌊rankPos S.length p⌋ = ⌈rankPos S.length p⌉
    · have hfle : ⌊rankPos S.length p⌋ ≤ (S.length : ℤ) - 1 := by rw [hfc]; exact hcle
      have hidx : (⌊rankPos S.length p⌋).toNat < S.length := by omega
      refine ⟨S.getD (⌊rankPos S.length p⌋).toNat 0, ?_, ?_, ?_⟩
      · rw [percentile, if_neg hne, if_pos hfc]
      · exact (getD_bounds S hne hsort _ hidx).1
      · exact (getD_bounds S hne hsort _ hidx).2
    · have hflt : ⌊rankPos S.length p⌋ < ⌈rankPos S.length p⌉ :=
        lt_of_le_of_ne (Int.floor_le_ceil _) hfc
      have hceq : ⌈rankPos S.length p⌉ = ⌊rankPos S.length p⌋ + 1 :=
        le_antisymm (Int.ceil_le_floor_add_one _) (by omega)
      have hif : (⌊rankPos S.length p⌋).toNat < S.length := by omega
      have hic : (⌈rankPos S.length p⌉).toNat < S.length := by omega
      have ha := getD_bounds S hne hsort _ hif
      have hb := getD_bounds S hne hsort _ hic
      have hab : S.getD (⌊rankPos S.length p⌋).toNat 0 ≤
          S.getD (⌈rankPos S.length p⌉).toNat 0 :=
        getD_mono S hsort _ _ (by omega) hic
      have hw0 : 0 ≤ (⌈rankPos S.length p⌉ : ℚ) - rankPos S.length p := by
        have := Int.le_ceil (rankPos S.length p)
        linarith
      have hw1 : 0 ≤ rankPos S.length p - (⌊rankPos S.length p⌋ : ℚ) := by
        have := Int.floor_le (rankPos S.length p)
        linarith
      have hws : ((⌈rankPos S.length p⌉ : ℚ) - rankPos S.length p) +
          (rankPos S.length p - (⌊rankPos S.length p⌋ : ℚ)) = 1 := by
        rw [hceq]
        push_cast
        ring
      have hcb := convex_between (S.getD (⌊rankPos S.length p⌋).toNat 0)
        (S.getD (⌈rankPos S.length p⌉).toNat 0)
        ((⌈rankPos S.length p⌉ : ℚ) - rankPos S.length p)
        (rankPos S.length p - (⌊rankPos S.length p⌋ : ℚ))
        (S.head hne) (S.getLast hne) hw0 hw1 hws hab ha.1 hb.2
      refine ⟨_, ?_, hcb.1, hcb.2⟩
      rw [percentile, if_neg hne, if_neg hfc]
  · have hz : rankPos S.length 0 = 0 := by rw [rankPos]; ring
    have h00 : ⌊rankPos S.length 0⌋ = ⌈rankPos S.length 0⌉ := by rw [hz]; simp
    rw [percentile, if_neg hne, if_pos h00, hz]
    simp only [Int.floor_zero, Int.toNat_zero]
    rw [getD_zero_eq_head S hne]
  · have hr100 : rankPos S.length 100 = (((S.length : ℤ) - 1 : ℤ) : ℚ) := by
      rw [rankPos]
      push_cast
      ring
    have hfc : ⌊rankPos S.length 100⌋ = (S.length : ℤ) - 1 := by
      rw [hr100, Int.floor_intCast]
    have hcc : ⌈rankPos S.length 100⌉ = (S.length : ℤ) - 1 := by
      rw [hr100, Int.ceil_intCast]
    rw [percentile, if_neg hne, if_pos (by rw [hfc, hcc]), hfc]
    have ht : ((S.length : ℤ) - 1).toNat = S.length - 1 := by omega
    rw [ht, getD_length_sub_one S hne]

/-- The percentile bounds at a concrete sorted two-element sequence. -/
theorem percentile_within_min_max_witness :
    (∃ r, percentile [1, 2] 50 = some r ∧
        ([1, 2] : List ℚ).head (by simp) ≤ r ∧ r ≤ ([1, 2] : List ℚ).getLast (by simp)) ∧
    percentile [1, 2] 0 = some (([1, 2] : List ℚ).head (by simp)) ∧
    percentile [1, 2] 100 = some (([1, 2] : List ℚ).getLast (by simp)) :=
  percentile_within_min_max [1, 2] 50 (by simp) (by norm_num [List.sorted_cons])
    (by norm_num) (by norm_num)
